import Mathlib

/-!
Shallow embedding of the orchestration core of the Kodus repository
(src/app/api/chat/route.ts, src/unnamed/part_008 = the Supabase persistence
gateway, src/unnamed/part_003 = the task-status SSE endpoint), together with
proofs of the specification claims about it.

The orchestrator is modelled as a pure function from an oracle (the outcomes
of the external agent calls and persistence writes) to the finite list of
events pushed on the SSE stream.
-/

namespace Kodus

/-- Result of a successful external agent call (content plus token usage),
mirroring the `{ content, metadata: { tokensUsed } }` shape returned by
`callClaude` / `callGPT` / `callGemini`. -/
structure AgentResult where
  content : String
  tokensUsed : Nat
deriving Repr, DecidableEq

/-- Conversation mode, `type ChatMode = 'solo' | 'duo' | 'team'` from
src/lib/types.ts. -/
inductive ChatMode where
  | solo
  | duo
  | team
deriving Repr, DecidableEq

/-- One SSE event pushed by the chat route.  `conv` is the initial
`{type: 'conversation_id'}` frame sent by `POST`; `done` carries the
`totalTokens` component of its metadata (the `autoSaved` list is modelled
separately through `processAutoSave`). -/
inductive Event where
  | conv (id : String)
  | typing (sender : String)
  | message (sender : String) (content : String)
  | done (totalTokens : Nat)
  | errorEv (msg : String)
deriving Repr, DecidableEq

/-- Oracle for one orchestration run: the outcome of each external agent
call (`Except` error-message or result), whether the i-th `saveChatMessage`
call inside `orchestrateAI` succeeds (it throws on a database error), and
the wall-clock duration the run happens to take.  The duration is part of
the model solely so that timing claims are expressible; `orchestrateAI`
itself never consults a clock. -/
structure Oracle where
  claude : Except String AgentResult
  gpt : Except String AgentResult
  claudeSummary : Except String AgentResult
  gemini : Except String AgentResult
  claudeFinal : Except String AgentResult
  saveMsgOk : Nat → Bool
  durationMs : Nat

/-- Content actually used for a secondary agent stage: the call's content on
success, the stage's fixed apology fallback string when the call threw
(the `catch` branches at route.ts:618, 646, 681, 709). -/
def contentOr (r : Except String AgentResult) (fallbackMsg : String) : String :=
  match r with
  | .ok a => a.content
  | .error _ => fallbackMsg

/-- Tokens contributed by a secondary agent stage: on failure the `catch`
skips the `totalTokens` update, so the stage contributes zero. -/
def tokensOf (r : Except String AgentResult) : Nat :=
  match r with
  | .ok a => a.tokensUsed
  | .error _ => 0

/-- Fixed fallback for a failed GPT review stage (route.ts:620). -/
def gptApology : String := "Nie mogłem przeanalizować kodu w tym momencie."

/-- Fixed fallback for a failed Claude summary stage in duo mode (route.ts:647). -/
def summaryApology : String :=
  "Podsumowując feedback od GPT - moja oryginalna propozycja pozostaje aktualna."

/-- Fixed fallback for a failed Gemini review stage (route.ts:683). -/
def geminiApology : String := "Nie mogłem przeanalizować UI/UX w tym momencie."

/-- Fixed fallback for a failed final Claude stage in team mode (route.ts:710). -/
def finalApology : String :=
  "Uwzględniając feedback od GPT i Gemini - oto finalna wersja mojej propozycji."

/-- Error message raised by `saveChatMessage` (part_008:520) when the insert
fails; it propagates to the outer catch of `orchestrateAI`. -/
def saveMsgError : String := "Nie udało się zapisać wiadomości"

/-- Event trace of `orchestrateAI` (route.ts:541-733).  Stage order per mode:
claude, then (unless solo) gpt, then either the duo summary or the team
gemini + final stages.  The primary (first) Claude call failing emits a
terminal `error`; a failing `saveChatMessage` throws into the outer catch,
which also emits a terminal `error`; secondary agent failures substitute the
apology strings via `contentOr`. -/
def orchestrateAI (o : Oracle) (mode : ChatMode) : List Event :=
  match o.claude with
  | .error e =>
      [Event.typing "claude", Event.errorEv ("Błąd Claude: " ++ e)]
  | .ok cr =>
      let ev1 := [Event.typing "claude", Event.message "claude" cr.content]
      if o.saveMsgOk 0 = false then ev1 ++ [Event.errorEv saveMsgError]
      else match mode with
      | .solo => ev1 ++ [Event.done cr.tokensUsed]
      | .duo =>
          let gptContent := contentOr o.gpt gptApology
          let ev2 := ev1 ++ [Event.typing "gpt", Event.message "gpt" gptContent]
          if o.saveMsgOk 1 = false then ev2 ++ [Event.errorEv saveMsgError]
          else
            let sumContent := contentOr o.claudeSummary summaryApology
            let ev3 := ev2 ++ [Event.typing "claude", Event.message "claude" sumContent]
            if o.saveMsgOk 2 = false then ev3 ++ [Event.errorEv saveMsgError]
            else ev3 ++ [Event.done (cr.tokensUsed + tokensOf o.gpt + tokensOf o.claudeSummary)]
      | .team =>
          let gptContent := contentOr o.gpt gptApology
          let ev2 := ev1 ++ [Event.typing "gpt", Event.message "gpt" gptContent]
          if o.saveMsgOk 1 = false then ev2 ++ [Event.errorEv saveMsgError]
          else
            let gemContent := contentOr o.gemini geminiApology
            let ev3 := ev2 ++ [Event.typing "gemini", Event.message "gemini" gemContent]
            if o.saveMsgOk 2 = false then ev3 ++ [Event.errorEv saveMsgError]
            else
              let finContent := contentOr o.claudeFinal finalApology
              let ev4 := ev3 ++ [Event.typing "claude", Event.message "claude" finContent]
              if o.saveMsgOk 3 = false then ev4 ++ [Event.errorEv saveMsgError]
              else ev4 ++ [Event.done (cr.tokensUsed + tokensOf o.gpt
                             + tokensOf o.gemini + tokensOf o.claudeFinal)]

/-- Senders of the `message` events of a trace, in emission order. -/
def msgSenders (tr : List Event) : List String :=
  tr.filterMap (fun e => match e with
    | Event.message s _ => some s
    | _ => none)

/-- Whether an event is terminal (`done` or `error`). -/
def isTerm : Event → Bool
  | Event.done _ => true
  | Event.errorEv _ => true
  | _ => false

/-- A trace is properly terminated when its last event is terminal and no
earlier event is. -/
def endsTerminalOnce : List Event → Bool
  | [] => false
  | [e] => isTerm e
  | e :: rest => !isTerm e && endsTerminalOnce rest

/-- Oracle in which every agent call succeeds (one token each) and every
persistence write succeeds; `d` is the wall-clock duration of the run. -/
def allOkOracle (d : Nat) : Oracle where
  claude := .ok ⟨"c", 1⟩
  gpt := .ok ⟨"g", 1⟩
  claudeSummary := .ok ⟨"s", 1⟩
  gemini := .ok ⟨"m", 1⟩
  claudeFinal := .ok ⟨"f", 1⟩
  saveMsgOk := fun _ => true
  durationMs := d

-- ============================================
-- Task-status SSE endpoint (src/unnamed/part_003)
-- ============================================

/-- Task status column values used by the stream endpoint (part_003:110-156). -/
inductive TaskStatus where
  | pending
  | in_progress
  | completed
  | failed
deriving Repr, DecidableEq

/-- The fields of a `tasks` row the stream endpoint reads. -/
structure TaskRow where
  status : TaskStatus
  iteration_count : Nat
  final_code : Option String
deriving Repr, DecidableEq

/-- The fields of the latest `task_iterations` row the stream endpoint reads. -/
structure IterRow where
  iteration_number : Nat
  claude_code : Option String
  gpt_feedback : Option String
  gemini_feedback : Option String
deriving Repr, DecidableEq

/-- The `StreamEvent['status']` values (part_003:106-156). -/
inductive StreamStatus where
  | idle
  | claude_working
  | claude_fixing
  | gpt_review
  | gemini_review
  | doneS
  | errorS
deriving Repr, DecidableEq

/-- One event of the task-status stream: its status, optional attached code
(for the `done` case) and optional error tag. -/
structure SEvent where
  status : StreamStatus
  code : Option String
  errTag : Option String
deriving Repr, DecidableEq

/-- Timeout budget of the task-status stream,
`MAX_DURATION = 5 * 60 * 1000` (part_003:25). -/
def MAX_DURATION : Nat := 5 * 60 * 1000

/-- Stream status and current iteration computed from the task row and its
latest iteration (the `switch (typedTask.status)` at part_003:105-156).
`iteration_count || 1` maps a zero count to 1. -/
def streamStatusOf (task : TaskRow) (lastIteration : Option IterRow) :
    StreamStatus × Nat :=
  let defaultIter := if task.iteration_count = 0 then 1 else task.iteration_count
  match task.status with
  | .pending => (.idle, defaultIter)
  | .in_progress =>
      match lastIteration with
      | some it =>
          let cur := it.iteration_number
          if it.claude_code = none then
            (if cur > 1 then (.claude_fixing, cur) else (.claude_working, cur))
          else if it.gpt_feedback = none then (.gpt_review, cur)
          else if it.gemini_feedback = none then (.gemini_review, cur)
          else (.claude_fixing, cur)
      | none => (.claude_working, defaultIter)
  | .completed => (.doneS, defaultIter)
  | .failed => (.errorS, defaultIter)

/-- One execution of `checkTaskStatus` (part_003:62-224) when the task row
was fetched: returns the events it pushes and whether the loop continues.
A missing task row is modelled by `task = none` (the `PGRST116` branch).
The timeout check runs only after the terminal-status check, so exceeding
`MAX_DURATION` forces a terminal TIMEOUT error for any non-terminal task. -/
def checkTaskStatus (elapsed : Nat) (task : Option TaskRow)
    (lastIteration : Option IterRow) (lastStatus : Option StreamStatus)
    (lastIterationCount : Nat) : List SEvent × Bool :=
  match task with
  | none => ([⟨.errorS, none, some "NOT_FOUND"⟩], false)
  | some t =>
      let (st, cur) := streamStatusOf t lastIteration
      let changed := lastStatus ≠ some st ∨ cur ≠ lastIterationCount
      let statusEvents : List SEvent :=
        if changed then
          [⟨st, if st = .doneS then t.final_code else none,
            if st = .errorS then some "Task failed" else none⟩]
        else []
      if st = .doneS ∨ st = .errorS then (statusEvents, false)
      else if elapsed > MAX_DURATION then
        (statusEvents ++ [⟨.errorS, none, some "TIMEOUT"⟩], false)
      else (statusEvents, true)

-- ============================================
-- Claim theorems: orchestration (C1, C2, C6, C7)
-- ============================================

/-- C1: for every team-mode run in which the primary Claude call and all
`saveChatMessage` writes succeed, exactly four `message` events are emitted,
with senders claude, gpt, gemini, claude in that order, and the trace ends
with a terminal `done` event. -/
theorem team_mode_emits_four_messages_then_done (o : Oracle) (cr : AgentResult)
    (hc : o.claude = .ok cr) (hs : ∀ i, o.saveMsgOk i = true) :
    msgSenders (orchestrateAI o .team) = ["claude", "gpt", "gemini", "claude"] ∧
    ∃ t, (orchestrateAI o .team).getLast? = some (Event.done t) := by
  simp [orchestrateAI, hc, hs, msgSenders]

/-- Witness for C1: the all-success oracle yields exactly the four message
senders and a final done event. -/
theorem team_mode_emits_four_messages_then_done_witness :
    msgSenders (orchestrateAI (allOkOracle 0) .team) = ["claude", "gpt", "gemini", "claude"] ∧
    ∃ t, (orchestrateAI (allOkOracle 0) .team).getLast? = some (Event.done t) :=
  team_mode_emits_four_messages_then_done (allOkOracle 0) ⟨"c", 1⟩ rfl (fun _ => rfl)

/-- C2: (a) if the primary Claude call throws, the trace is exactly a typing
event followed by a terminal `error` event — no further typing or message
events; (b) if the primary call and all message writes succeed, the run
reaches `done` whatever the reviewer outcomes (a reviewer failure never
aborts the run); (c) in team mode, if reviewer#1 (GPT) throws, the fixed
apology string is emitted as its message and reviewer#2 (Gemini) still runs,
with the run reaching `done`. -/
theorem primary_fatal_reviewer_degraded (o : Oracle) (mode : ChatMode) :
    (∀ e, o.claude = .error e →
      orchestrateAI o mode =
        [Event.typing "claude", Event.errorEv ("Błąd Claude: " ++ e)]) ∧
    ((∀ i, o.saveMsgOk i = true) → ∀ cr, o.claude = .ok cr →
      ∃ t, (orchestrateAI o mode).getLast? = some (Event.done t)) ∧
    (mode = .team → (∀ i, o.saveMsgOk i = true) → ∀ cr, o.claude = .ok cr →
      ∀ e, o.gpt = .error e →
      Event.message "gpt" gptApology ∈ orchestrateAI o mode ∧
      Event.typing "gemini" ∈ orchestrateAI o mode ∧
      ∃ t, (orchestrateAI o mode).getLast? = some (Event.done t)) := by
  refine ⟨fun e he => by simp [orchestrateAI, he], ?_, ?_⟩
  · intro hs cr hc
    cases mode <;> simp [orchestrateAI, hc, hs]
  · rintro rfl hs cr hc e hg
    simp [orchestrateAI, hc, hs, hg, contentOr]

/-- Witness for C2: a primary failure yields exactly the two-event error
trace; a GPT failure in team mode still emits the apology message, runs
Gemini, and reaches done. -/
theorem primary_fatal_reviewer_degraded_witness :
    (orchestrateAI { allOkOracle 0 with claude := .error "boom" } .team =
      [Event.typing "claude", Event.errorEv ("Błąd Claude: " ++ "boom")]) ∧
    (Event.message "gpt" gptApology ∈
        orchestrateAI { allOkOracle 0 with gpt := .error "boom" } .team ∧
      Event.typing "gemini" ∈
        orchestrateAI { allOkOracle 0 with gpt := .error "boom" } .team ∧
      ∃ t, (orchestrateAI { allOkOracle 0 with gpt := .error "boom" } .team).getLast? =
        some (Event.done t)) :=
  ⟨(primary_fatal_reviewer_degraded { allOkOracle 0 with claude := .error "boom" } .team).1
      "boom" rfl,
   (primary_fatal_reviewer_degraded { allOkOracle 0 with gpt := .error "boom" } .team).2.2
      rfl (fun _ => rfl) ⟨"c", 1⟩ rfl "boom" rfl⟩

/-- C6: every orchestration run, over every mode and every oracle, emits
exactly one terminal (`done` or `error`) event, and it is the last event of
the trace — nothing is ever emitted after it. -/
theorem terminal_event_unique_and_last (o : Oracle) (mode : ChatMode) :
    endsTerminalOnce (orchestrateAI o mode) = true := by
  cases mode <;> rcases hc : o.claude with e | cr <;>
    rcases h0 : o.saveMsgOk 0 <;> rcases h1 : o.saveMsgOk 1 <;>
    rcases h2 : o.saveMsgOk 2 <;> rcases h3 : o.saveMsgOk 3 <;>
    simp [orchestrateAI, hc, h0, h1, h2, h3, endsTerminalOnce, isTerm]

/-- C7 counterexample: the chat orchestration run has no wall-clock budget.
A run lasting one hour (far beyond the five-minute budget the claim refers
to) with all calls succeeding still terminates in `done` and never emits an
`error` event, contradicting the claim that exceeding the budget forces a
terminal `error`. -/
theorem chat_run_has_no_time_budget :
    (allOkOracle 3600000).durationMs = 3600000 ∧
    3600000 > MAX_DURATION ∧
    (orchestrateAI (allOkOracle 3600000) .team).getLast? = some (Event.done 4) ∧
    ∀ e ∈ orchestrateAI (allOkOracle 3600000) .team, ∀ m, e ≠ Event.errorEv m := by
  refine ⟨rfl, by decide, rfl, ?_⟩
  intro e he m
  fin_cases he <;> simp

/-- C7 amended: the chat orchestration (`orchestrateAI`) is not
time-bounded — its event trace is independent of the run's wall-clock
duration; only the task-status stream endpoint enforces a budget: a status
poll at elapsed time beyond `MAX_DURATION` (5 minutes) whose task has not
reached a terminal stream status pushes a terminal TIMEOUT error event as
its last event and closes the stream, whatever the stage in progress. -/
theorem time_budget_only_in_task_stream :
    (∀ (o : Oracle) (mode : ChatMode) (d : Nat),
      orchestrateAI { o with durationMs := d } mode = orchestrateAI o mode) ∧
    (∀ (elapsed : Nat) (t : TaskRow) (lastIteration : Option IterRow)
        (lastStatus : Option StreamStatus) (lastIterationCount : Nat),
      (streamStatusOf t lastIteration).1 ≠ .doneS →
      (streamStatusOf t lastIteration).1 ≠ .errorS →
      elapsed > MAX_DURATION →
      (checkTaskStatus elapsed (some t) lastIteration lastStatus lastIterationCount).2
          = false ∧
      (checkTaskStatus elapsed (some t) lastIteration lastStatus
          lastIterationCount).1.getLast? = some ⟨.errorS, none, some "TIMEOUT"⟩) := by
  constructor
  · intro o mode d
    obtain ⟨c, g, s, m, f, sv, dm⟩ := o
    cases c <;> cases mode <;> rfl
  · intro elapsed t lastIteration lastStatus lastIterationCount hd he ht
    simp only [checkTaskStatus]
    rcases hst : streamStatusOf t lastIteration with ⟨st, cur⟩
    rw [hst] at hd he
    simp only at hd he
    have hne : ¬(st = .doneS ∨ st = .errorS) := by
      rintro (rfl | rfl) <;> simp at hd he
    simp [hne, ht]

/-- Witness for C7's amended theorem: a one-hour orchestration run equals
the zero-duration run, and a poll one millisecond past the budget for an
in-progress task with no iterations times out. -/
theorem time_budget_only_in_task_stream_witness :
    (orchestrateAI { allOkOracle 0 with durationMs := 3600000 } .team =
      orchestrateAI (allOkOracle 0) .team) ∧
    ((checkTaskStatus 300001 (some ⟨.in_progress, 1, none⟩) none
        (some .claude_working) 1).2 = false ∧
      (checkTaskStatus 300001 (some ⟨.in_progress, 1, none⟩) none
        (some .claude_working) 1).1.getLast? = some ⟨.errorS, none, some "TIMEOUT"⟩) :=
  ⟨time_budget_only_in_task_stream.1 (allOkOracle 0) .team 3600000,
   time_budget_only_in_task_stream.2 300001 ⟨.in_progress, 1, none⟩ none
     (some .claude_working) 1 (by decide) (by decide) (by decide)⟩

-- ============================================
-- Preference upsert (part_008:589-636) — C5
-- ============================================

/-- A row of the `preferences` table (the fields `savePreference` touches). -/
structure Preference where
  category : String
  key : String
  value : String
deriving Repr, DecidableEq

/-- The upsert of `savePreference` (part_008:589-636): query the row with the
given key via `.single()` — which yields a row only when exactly one matches,
any error being discarded by the destructuring — then update that row's
category and value in place, otherwise insert a new row. -/
def savePreference (db : List Preference) (category key value : String) :
    List Preference :=
  let existing := db.filter (fun p => p.key == key)
  if existing.length = 1 then
    db.map (fun p => if p.key == key then ⟨category, key, value⟩ else p)
  else
    db ++ [⟨category, key, value⟩]

/-- The stored records with a given preference key. -/
def keyRecords (db : List Preference) (key : String) : List Preference :=
  db.filter (fun p => p.key == key)

theorem keyRecords_updAll (db : List Preference) (category key value : String) :
    keyRecords (db.map (fun p => if p.key == key then ⟨category, key, value⟩ else p)) key
      = (keyRecords db key).map (fun _ => ⟨category, key, value⟩) := by
  induction db with
  | nil => rfl
  | cons p rest ih =>
      by_cases h : p.key = key <;>
        simp [keyRecords, List.filter_cons, h] at ih ⊢ <;>
        simpa [keyRecords] using ih

theorem keyRecords_append (db l : List Preference) (key : String) :
    keyRecords (db ++ l) key = keyRecords db key ++ keyRecords l key := by
  simp [keyRecords, List.filter_append]

theorem savePreference_update (db : List Preference) (c k v : String)
    (p0 : Preference) (h : keyRecords db k = [p0]) :
    keyRecords (savePreference db c k v) k = [⟨c, k, v⟩] := by
  simp only [savePreference]
  have hc : (db.filter (fun p => p.key == k)).length = 1 := by
    rw [show db.filter (fun p => p.key == k) = keyRecords db k from rfl, h]
    rfl
  rw [if_pos hc, keyRecords_updAll, h]
  rfl

theorem savePreference_insert (db : List Preference) (c k v : String)
    (h : keyRecords db k = []) :
    keyRecords (savePreference db c k v) k = [⟨c, k, v⟩] := by
  have heq : savePreference db c k v = db ++ [⟨c, k, v⟩] := by
    simp only [savePreference]
    rw [show db.filter (fun p => p.key == k) = keyRecords db k from rfl, h]
    simp
  rw [heq, keyRecords_append, h]
  simp [keyRecords]

/-- C5: saving the same preference key twice (with any categories and
values), starting from a store holding at most one record for that key,
leaves exactly one stored record for the key, carrying the category and
value of the second save. -/
theorem savePreference_twice_idempotent_upsert
    (db : List Preference) (key c1 v1 c2 v2 : String)
    (h : (keyRecords db key).length ≤ 1) :
    keyRecords (savePreference (savePreference db c1 key v1) c2 key v2) key
      = [⟨c2, key, v2⟩] := by
  rcases hlist : keyRecords db key with _ | ⟨p0, rest⟩
  · exact savePreference_update _ c2 key v2 ⟨c1, key, v1⟩
      (savePreference_insert db c1 key v1 hlist)
  · have hr : rest = [] := by
      rw [hlist] at h
      simp only [List.length_cons] at h
      exact List.length_eq_zero.mp (by omega)
    subst hr
    exact savePreference_update _ c2 key v2 ⟨c1, key, v1⟩
      (savePreference_update db c1 key v1 p0 hlist)

/-- Witness for C5: saving key "name" twice into an empty store leaves one
record with the second category and value. -/
theorem savePreference_twice_idempotent_upsert_witness :
    keyRecords (savePreference (savePreference [] "personal" "name" "Piotr")
      "general" "name" "Pete") "name" = [⟨"general", "name", "Pete"⟩] :=
  savePreference_twice_idempotent_upsert [] "name" "personal" "Piotr" "general" "Pete"
    (by decide)

-- ============================================
-- Tech-stack insert (part_008:991-1028) — C10
-- ============================================

/-- ASCII lower-casing of one character, the comparison `ilike` performs on
the ASCII technology names stored by this code path. -/
def lowerAscii (c : Char) : Char :=
  if 'A' ≤ c ∧ c ≤ 'Z' then Char.ofNat (c.toNat + 32) else c

/-- Case-insensitive equality of names, modelling `ilike` without wildcards. -/
def nameEqCI (a b : String) : Bool :=
  a.toList.map lowerAscii == b.toList.map lowerAscii

/-- A row of the `tech_stack` table (the fields `saveTechStack` touches). -/
structure TechRow where
  project_id : String
  name : String
  category : String
deriving Repr, DecidableEq

/-- Whether two tech rows collide: same project and case-insensitively equal
name. -/
def techMatches (a b : TechRow) : Bool :=
  a.project_id == b.project_id && nameEqCI a.name b.name

/-- The duplicate check plus insert of `saveTechStack` (part_008:991-1028):
`.single()` on the rows of the same project with `ilike`-equal name yields a
row only when exactly one matches (errors are discarded); if one matches the
function returns null without inserting, otherwise it inserts — the insert
itself returning null on a database error, modelled by `insertOk`. -/
def saveTechStack (db : List TechRow) (input : TechRow) (insertOk : Bool) :
    List TechRow × Option TechRow :=
  let existing := db.filter (fun r => techMatches r input)
  if existing.length = 1 then (db, none)
  else if insertOk then (db ++ [input], some input) else (db, none)

/-- Per-project uniqueness of technology names, up to case. -/
def techUnique (db : List TechRow) : Prop :=
  db.Pairwise (fun a b => techMatches a b = false)

theorem techMatches_trans_conflict (a b input : TechRow)
    (ha : techMatches a input = true) (hb : techMatches b input = true) :
    techMatches a b = true := by
  simp only [techMatches, nameEqCI, Bool.and_eq_true, beq_iff_eq] at ha hb ⊢
  exact ⟨ha.1.trans hb.1.symm, ha.2.trans hb.2.symm⟩

theorem filter_techMatches_length_le_one (db : List TechRow) (input : TechRow)
    (hu : techUnique db) :
    (db.filter (fun r => techMatches r input)).length ≤ 1 := by
  induction db with
  | nil => simp
  | cons a rest ih =>
      rw [techUnique, List.pairwise_cons] at hu
      obtain ⟨ha, hrest⟩ := hu
      by_cases hm : techMatches a input = true
      · have hnil : rest.filter (fun r => techMatches r input) = [] := by
          rw [List.filter_eq_nil_iff]
          intro b hb
          simp only [Bool.not_eq_true]
          by_contra hb2
          rw [Bool.not_eq_false] at hb2
          have hab := techMatches_trans_conflict a b input hm hb2
          rw [ha b hb] at hab
          exact Bool.false_ne_true hab
        simp [List.filter_cons, hm, hnil]
      · simp only [Bool.not_eq_true] at hm
        simp only [List.filter_cons, hm, Bool.false_eq_true, if_false]
        exact ih hrest

/-- C10: `saveTechStack` preserves per-project uniqueness of technology
names: starting from a store satisfying the uniqueness invariant, if a
record with the same name (case-insensitively) already exists for the
project then nothing is inserted and null is returned, and in every case the
resulting store still satisfies the invariant — no project ever gains two
records with the same name through this operation. -/
theorem saveTechStack_preserves_uniqueness
    (db : List TechRow) (input : TechRow) (insertOk : Bool)
    (hu : techUnique db) :
    ((∃ r ∈ db, techMatches r input = true) →
      saveTechStack db input insertOk = (db, none)) ∧
    techUnique (saveTechStack db input insertOk).1 := by
  have hle := filter_techMatches_length_le_one db input hu
  constructor
  · rintro ⟨r, hr, hmr⟩
    have hmem : r ∈ db.filter (fun r => techMatches r input) :=
      List.mem_filter.mpr ⟨hr, hmr⟩
    have hpos : 0 < (db.filter (fun r => techMatches r input)).length :=
      List.length_pos.mpr (List.ne_nil_of_mem hmem)
    have hone : (db.filter (fun r => techMatches r input)).length = 1 := by omega
    simp [saveTechStack, hone]
  · by_cases hone : (db.filter (fun r => techMatches r input)).length = 1
    · simpa [saveTechStack, hone] using hu
    · have hzero : (db.filter (fun r => techMatches r input)).length = 0 := by omega
      have hnil : db.filter (fun r => techMatches r input) = [] :=
        List.length_eq_zero.mp hzero
      have hnomatch : ∀ a ∈ db, techMatches a input = false := by
        intro a haDb
        by_contra habs
        rw [Bool.not_eq_false] at habs
        have : a ∈ db.filter (fun r => techMatches r input) :=
          List.mem_filter.mpr ⟨haDb, habs⟩
        rw [hnil] at this
        exact absurd this (List.not_mem_nil a)
      cases hins : insertOk
      · simpa [saveTechStack, hone, hins] using hu
      · simp only [saveTechStack, hone, hins, if_false, if_true]
        rw [techUnique, List.pairwise_append]
        refine ⟨hu, List.pairwise_singleton _ _, ?_⟩
        intro a haDb b hb
        rw [List.mem_singleton] at hb
        subst hb
        exact hnomatch a haDb

/-- Witness for C10: inserting "React" into a store already holding "react"
for the same project changes nothing and returns null, and the store stays
duplicate-free. -/
theorem saveTechStack_preserves_uniqueness_witness :
    ((∃ r ∈ [(⟨"p1", "react", "framework"⟩ : TechRow)],
        techMatches r ⟨"p1", "React", "framework"⟩ = true) →
      saveTechStack [⟨"p1", "react", "framework"⟩] ⟨"p1", "React", "framework"⟩ true
        = ([⟨"p1", "react", "framework"⟩], none)) ∧
    techUnique (saveTechStack [⟨"p1", "react", "framework"⟩]
      ⟨"p1", "React", "framework"⟩ true).1 :=
  saveTechStack_preserves_uniqueness [⟨"p1", "react", "framework"⟩]
    ⟨"p1", "React", "framework"⟩ true (List.pairwise_singleton _ _)

-- ============================================
-- Auto-save pattern detection (route.ts:69-211)
-- ============================================

/-- Lower-casing for the characters this code compares case-insensitively:
ASCII letters plus the Polish diacritics appearing in the route's regular
expressions. -/
def lowerPL (c : Char) : Char :=
  if 'A' ≤ c ∧ c ≤ 'Z' then Char.ofNat (c.toNat + 32)
  else if c = 'Ą' then 'ą' else if c = 'Ć' then 'ć' else if c = 'Ę' then 'ę'
  else if c = 'Ł' then 'ł' else if c = 'Ń' then 'ń' else if c = 'Ó' then 'ó'
  else if c = 'Ś' then 'ś' else if c = 'Ź' then 'ź' else if c = 'Ż' then 'ż'
  else c

/-- Whether `needle` is an initial segment of `hay`. -/
def startsWithL : List Char → List Char → Bool
  | [], _ => true
  | _ :: _, [] => false
  | n :: ns, h :: hs => n == h && startsWithL ns hs

/-- Whether `needle` occurs contiguously anywhere inside `hay`. -/
def occursIn (needle : List Char) : List Char → Bool
  | [] => needle.isEmpty
  | c :: rest => startsWithL needle (c :: rest) || occursIn needle rest

/-- Case-insensitive substring test, the semantics of `.test` for a regex
that is a plain alternation of literals with the `i` flag. -/
def containsCI (lit : String) (content : String) : Bool :=
  occursIn (lit.toList.map lowerPL) (content.toList.map lowerPL)

/-- Whether any of the given literal alternatives occurs in the content. -/
def anyLit (content : String) (lits : List String) : Bool :=
  lits.any (fun l => containsCI l content)

/-- The `AutoSavePatternType` union from src/lib/types.ts. -/
inductive AutoSavePatternType where
  | decision
  | bug
  | prompt
  | rule
  | tech
  | feedback
deriving Repr, DecidableEq

/-- Literal alternatives of `AUTO_SAVE_PATTERNS.decision` (route.ts:70);
the character class in `rekomenduj[eę]` is flattened into two literals. -/
def decisionLits : List String :=
  ["zdecydowałem", "decyzja", "wybieramy", "lepszym rozwiązaniem", "postanowiłem",
   "wybieram", "decyduję", "będziemy używać", "rekomenduje", "rekomenduję", "zalecam"]

/-- Literal alternatives of `AUTO_SAVE_PATTERNS.bug` (route.ts:71). -/
def bugLits : List String :=
  ["bug", "błąd", "fix", "naprawiłem", "problem był", "rozwiązanie", "naprawiono",
   "error", "issue", "poprawka", "debugowanie"]

/-- Literal alternatives of `AUTO_SAVE_PATTERNS.prompt` (route.ts:72). -/
def promptLits : List String :=
  ["prompt dla", "wklej do claude", "użyj tego promptu", "skopiuj ten prompt", "prompt:"]

/-- Literal alternatives of `AUTO_SAVE_PATTERNS.rule` (route.ts:73);
`preferuj[eę]` is flattened into two literals. -/
def ruleLits : List String :=
  ["zawsze używaj", "nigdy nie", "preferuje", "preferuję", "zasada", "reguła",
   "konwencja", "standard", "wymóg"]

/-- Literal alternatives of `AUTO_SAVE_PATTERNS.tech` (route.ts:74). -/
def techLits : List String :=
  ["używam", "stack", "framework", "biblioteka", "technologia",
   "język programowania", "baza danych"]

/-- Literal alternatives of `AUTO_SAVE_PATTERNS.feedback` (route.ts:75),
lower-cased since the regex carries the `i` flag. -/
def feedbackLits : List String :=
  ["[bug]", "[optymalizacja]", "[edge case]", "[best practice]", "[ui]", "[ux]", "[a11y]"]

/-- The ordered `AUTO_SAVE_PATTERNS` table (route.ts:69-76); object key
order is insertion order, which `Object.entries` preserves. -/
def AUTO_SAVE_PATTERNS : List (AutoSavePatternType × List String) :=
  [(.decision, decisionLits), (.bug, bugLits), (.prompt, promptLits),
   (.rule, ruleLits), (.tech, techLits), (.feedback, feedbackLits)]

/-- The detector `detectAutoSavePatterns` (route.ts:85-95): every pattern
whose regex tests true against the content, in table order. -/
def detectAutoSavePatterns (content : String) : List AutoSavePatternType :=
  AUTO_SAVE_PATTERNS.filterMap
    (fun pr => if anyLit content pr.2 then some pr.1 else none)

-- ============================================
-- A small backtracking regex engine
-- ============================================

/-- Regular-expression syntax sufficient for the route's patterns.  `lit`
compares case-insensitively (the `i` flag); `litc` is case-sensitive, for
the one pattern without the flag. `dot` is `.` (anything but a newline),
`anyc` is `[\s\S]`, `star` and `rep` are greedy, `lstar` is lazy. -/
inductive RE where
  | eps
  | lit (c : Char)
  | litc (c : Char)
  | dot
  | anyc
  | cls (cs : List Char)
  | seq (a b : RE)
  | alt (a b : RE)
  | star (r : RE)
  | lstar (r : RE)
  | rep (lo hi : Nat) (r : RE)
  | grp (n : Nat) (r : RE)

/-- Structural size of a regex, used to compute a sufficient fuel bound. -/
def reSize : RE → Nat
  | .eps | .lit _ | .litc _ | .dot | .anyc | .cls _ => 1
  | .seq a b | .alt a b => reSize a + reSize b + 1
  | .star r | .lstar r | .grp _ r => reSize r + 1
  | .rep _ hi r => (reSize r + 1) * (hi + 1) + 1

/-- Recorded capture groups: group index paired with the consumed characters. -/
def Caps : Type := List (Nat × List Char)

/-- Backtracking matcher in continuation-passing style, mirroring the
leftmost-first, greedy-preferring semantics of JavaScript regexes.  Fuel
bounds the recursion depth; `matchFuel` below always provides enough. -/
def mtch : Nat → RE → List Char → Caps →
    (List Char → Caps → Option Caps) → Option Caps
  | 0, _, _, _, _ => none
  | fuel + 1, re, s, caps, k =>
    match re with
    | .eps => k s caps
    | .lit c =>
        match s with
        | [] => none
        | c2 :: rest => if lowerPL c2 = c then k rest caps else none
    | .litc c =>
        match s with
        | [] => none
        | c2 :: rest => if c2 = c then k rest caps else none
    | .dot =>
        match s with
        | [] => none
        | c2 :: rest => if c2 = '\n' then none else k rest caps
    | .anyc =>
        match s with
        | [] => none
        | _ :: rest => k rest caps
    | .cls cs =>
        match s with
        | [] => none
        | c2 :: rest => if cs.contains (lowerPL c2) then k rest caps else none
    | .seq a b => mtch fuel a s caps (fun s2 caps2 => mtch fuel b s2 caps2 k)
    | .alt a b =>
        match mtch fuel a s caps k with
        | some r => some r
        | none => mtch fuel b s caps k
    | .star r =>
        match mtch fuel r s caps (fun s2 caps2 =>
            if s2.length < s.length then mtch fuel (.star r) s2 caps2 k
            else none) with
        | some res => some res
        | none => k s caps
    | .lstar r =>
        match k s caps with
        | some res => some res
        | none =>
            mtch fuel r s caps (fun s2 caps2 =>
              if s2.length < s.length then mtch fuel (.lstar r) s2 caps2 k
              else none)
    | .rep lo hi r =>
        match hi with
        | 0 => k s caps
        | hi' + 1 =>
            match mtch fuel r s caps (fun s2 caps2 =>
                if s2.length < s.length then mtch fuel (.rep (lo - 1) hi' r) s2 caps2 k
                else none) with
            | some res => some res
            | none => if lo = 0 then k s caps else none
    | .grp n r =>
        mtch fuel r s caps (fun s2 caps2 =>
          k s2 ((n, s.take (s.length - s2.length)) :: caps2))

/-- Fuel sufficient for matching `r` against `s`. -/
def matchFuel (r : RE) (s : List Char) : Nat :=
  (reSize r + 2) * (2 * s.length + 8)

/-- Attempt a match of the whole regex starting at the head of `s`. -/
def mtchStart (fuel : Nat) (r : RE) (s : List Char) : Option Caps :=
  mtch fuel r s [] (fun _ caps => some caps)

/-- Leftmost unanchored search: try each start position left to right. -/
def refindAux (fuel : Nat) (r : RE) : List Char → Option Caps
  | [] => mtchStart fuel r []
  | c :: rest =>
      match mtchStart fuel r (c :: rest) with
      | some caps => some caps
      | none => refindAux fuel r rest

/-- The semantics of `content.match(re)`: captures of the leftmost match,
or `none` when the regex does not occur. -/
def refind (r : RE) (s : String) : Option Caps :=
  refindAux (matchFuel r s.toList) r s.toList

/-- The value of capture group `n` (empty when the group is absent). -/
def capGet (caps : Caps) (n : Nat) : String :=
  match List.find? (fun p => p.1 == n) caps with
  | some p => String.mk p.2
  | none => ""

/-- A case-insensitive literal word as a regex. -/
def rlit (w : String) : RE :=
  w.toList.foldr (fun c r => RE.seq (.lit c) r) .eps

/-- A case-sensitive literal word as a regex. -/
def rlitCS (w : String) : RE :=
  w.toList.foldr (fun c r => RE.seq (.litc c) r) .eps

/-- Alternation of a list of regexes, first alternative preferred. -/
def raltList : List RE → RE
  | [] => .eps
  | [r] => r
  | r :: rest => .alt r (raltList rest)

/-- The characters of the `\s` class (ASCII part). -/
def wsChars : List Char := [' ', '\t', '\n', '\r', Char.ofNat 11, Char.ofNat 12]

/-- Whether a character belongs to the `\s` class. -/
def isWsJS (c : Char) : Bool := wsChars.contains c

/-- The semantics of `String.prototype.trim`: strip leading and trailing
whitespace. -/
def trimJS (s : String) : String :=
  String.mk (((s.toList.dropWhile isWsJS).reverse.dropWhile isWsJS).reverse)

/-- The semantics of `.slice(0, n)` on a string. -/
def takeS (s : String) (n : Nat) : String := String.mk (s.toList.take n)

/-- Greedy `r+`. -/
def rplus (r : RE) : RE := .seq r (.star r)

/-- Greedy `r?`. -/
def ropt (r : RE) : RE := .alt r .eps

/-- The regex `\s+`. -/
def wsPlus : RE := rplus (.cls wsChars)

/-- The regex `\s*`. -/
def wsStar : RE := .star (.cls wsChars)

/-- The regex `[\s:]+`. -/
def wsColonPlus : RE := rplus (.cls (wsChars ++ [':']))

-- ============================================
-- Extractors (route.ts:100-211)
-- ============================================

/-- The characters `split(/[.!?\n]/)` cuts at. -/
def sentenceCut : List Char := ['.', '!', '?', '\n']

/-- The first segment of `split(/[.!?\n]/)`. -/
def firstSentence (s : String) : String :=
  String.mk (s.toList.takeWhile (fun c => !sentenceCut.contains c))

/-- The first segment of `split(/\n\n/)`. -/
def upToDoubleNL : List Char → List Char
  | [] => []
  | '\n' :: '\n' :: _ => []
  | c :: rest => c :: upToDoubleNL rest

/-- Decision title pattern 1 (route.ts:103):
`(?:zdecydowałem|wybieram|decyduję)\s+(?:się\s+)?(?:na|że|aby)?\s*(.{10,100})`. -/
def decisionRE1 : RE :=
  .seq (raltList [rlit "zdecydowałem", rlit "wybieram", rlit "decyduję"])
    (.seq wsPlus
      (.seq (ropt (.seq (rlit "się") wsPlus))
        (.seq (ropt (raltList [rlit "na", rlit "że", rlit "aby"]))
          (.seq wsStar (.grp 1 (.rep 10 100 .dot))))))

/-- Decision title pattern 2 (route.ts:104):
`(?:lepszym rozwiązaniem|rekomenduj[eę]|zalecam)\s+(?:jest|będzie)?\s*(.{10,100})`. -/
def decisionRE2 : RE :=
  .seq (raltList [rlit "lepszym rozwiązaniem",
                  .seq (rlit "rekomenduj") (.cls ['e', 'ę']), rlit "zalecam"])
    (.seq wsPlus
      (.seq (ropt (raltList [rlit "jest", rlit "będzie"]))
        (.seq wsStar (.grp 1 (.rep 10 100 .dot)))))

/-- Decision title pattern 3 (route.ts:105):
`(?:będziemy używać|używamy)\s+(.{5,50})`. -/
def decisionRE3 : RE :=
  .seq (raltList [rlit "będziemy używać", rlit "używamy"])
    (.seq wsPlus (.grp 1 (.rep 5 50 .dot)))

/-- First-match-wins attempt of the decision title patterns, with the
post-processing `match[1].split(/[.!?\n]/)[0].trim().slice(0, 100)`. -/
def tryTitle : List RE → String → Option String
  | [], _ => none
  | r :: rest, content =>
      match refind r content with
      | some caps => some (takeS (trimJS (firstSentence (capGet caps 1))) 100)
      | none => tryTitle rest content

/-- `extractDecisionTitle` (route.ts:100-116): the first matching decision
pattern's processed capture, else the fixed fallback title. -/
def extractDecisionTitle (content : String) : String :=
  (tryTitle [decisionRE1, decisionRE2, decisionRE3] content).getD
    "Decyzja architektoniczna"

/-- The bug description pattern `(?:bug|błąd|problem)[\s:]+(.{10,200})`
(route.ts:122). -/
def bugRE : RE :=
  .seq (raltList [rlit "bug", rlit "błąd", rlit "problem"])
    (.seq wsColonPlus (.grp 1 (.rep 10 200 .dot)))

/-- The fix pattern `(?:fix|napraw|rozwiązan|poprawk)[\s:]+(.{10,300})`
(route.ts:123). -/
def fixRE : RE :=
  .seq (raltList [rlit "fix", rlit "napraw", rlit "rozwiązan", rlit "poprawk"])
    (.seq wsColonPlus (.grp 1 (.rep 10 300 .dot)))

/-- Result of `extractBugInfo`. -/
structure BugInfo where
  description : String
  solution : String
deriving Repr, DecidableEq

/-- `extractBugInfo` (route.ts:121-129): description and solution from the
bug and fix patterns, each with its own fallback. -/
def extractBugInfo (content : String) : BugInfo where
  description :=
    match refind bugRE content with
    | some caps => trimJS (firstSentence (capGet caps 1))
    | none => "Bug znaleziony przez AI"
  solution :=
    match refind fixRE content with
    | some caps => trimJS (String.mk (upToDoubleNL (capGet caps 1).toList))
    | none => takeS content 500

/-- The fenced-code-block pattern ```` /```(?:prompt|text)?\n([\s\S]*?)```/ ````
(route.ts:136); this is the one pattern without the `i` flag, so its word
alternatives are case-sensitive. -/
def codeBlockRE : RE :=
  .seq (rlitCS "```")
    (.seq (ropt (.alt (rlitCS "prompt") (rlitCS "text")))
      (.seq (.litc '\n')
        (.seq (.grp 1 (.lstar .anyc)) (rlitCS "```"))))

/-- Result of `extractPrompt`; `name` embeds the current date, supplied
here as the `today` argument. -/
structure PromptInfo where
  name : String
  target : String
  promptContent : String
deriving Repr, DecidableEq

/-- `extractPrompt` (route.ts:134-149): `null` unless the content holds a
fenced code block; the target is chosen by case-insensitive mention of
codex, then gemini, defaulting to claude_code. -/
def extractPrompt (content : String) (today : String) : Option PromptInfo :=
  match refind codeBlockRE content with
  | some caps =>
      some { name := "Prompt " ++ today
             target := if containsCI "codex" content then "codex"
               else if containsCI "gemini" content then "gemini" else "claude_code"
             promptContent := trimJS (capGet caps 1) }
  | none => none

/-- Result of `extractProjectRule`. -/
structure RuleInfo where
  rule : String
  category : String
deriving Repr, DecidableEq

/-- The ordered rule patterns with their categories (route.ts:155-162). -/
def rulePatterns : List (RE × String) :=
  [(.seq (raltList [rlit "zawsze używaj", rlit "zawsze stosuj"])
      (.seq wsPlus (.grp 1 (.rep 5 100 .dot))), "code_style"),
   (.seq (raltList [rlit "nigdy nie", rlit "unikaj"])
      (.seq wsPlus (.grp 1 (.rep 5 100 .dot))), "code_style"),
   (.seq (raltList [rlit "konwencja", rlit "standard"])
      (.seq wsColonPlus (.grp 1 (.rep 10 150 .dot))), "naming"),
   (.seq (raltList [rlit "architektura", rlit "wzorzec"])
      (.seq wsColonPlus (.grp 1 (.rep 10 150 .dot))), "architecture"),
   (.seq (raltList [rlit "test", rlit "testuj"])
      (.seq wsColonPlus (.grp 1 (.rep 10 150 .dot))), "testing"),
   (.seq (raltList [.seq (rlit "bezpiecze") (.seq (.cls ['ń', 'n']) (rlit "stwo")),
                    rlit "security"])
      (.seq wsColonPlus (.grp 1 (.rep 10 150 .dot))), "security")]

/-- First-match-wins attempt of the rule patterns, post-processed with
`match[1].split(/[.!?\n]/)[0].trim()`. -/
def tryRules : List (RE × String) → String → Option RuleInfo
  | [], _ => none
  | (r, cat) :: rest, content =>
      match refind r content with
      | some caps => some ⟨trimJS (firstSentence (capGet caps 1)), cat⟩
      | none => tryRules rest content

/-- `extractProjectRule` (route.ts:154-174): the first matching rule pattern,
`null` when none matches — there is no generic fallback. -/
def extractProjectRule (content : String) : Option RuleInfo :=
  tryRules rulePatterns content

/-- The ordered technology vocabulary `techMap` (route.ts:184-201). -/
def techMap : List (String × String) :=
  [("react", "framework"), ("next.js", "framework"), ("nextjs", "framework"),
   ("vue", "framework"), ("angular", "framework"), ("svelte", "framework"),
   ("nuxt", "framework"), ("remix", "framework"),
   ("tailwind", "styling"), ("chakra", "styling"), ("mui", "styling"),
   ("bootstrap", "styling"),
   ("zustand", "state"), ("redux", "state"), ("jotai", "state"),
   ("recoil", "state"), ("mobx", "state"),
   ("axios", "library"), ("tanstack", "library"), ("react-query", "library"),
   ("swr", "library"),
   ("typescript", "language"), ("javascript", "language"), ("python", "language"),
   ("rust", "language"),
   ("supabase", "database"), ("postgresql", "database"), ("postgres", "database"),
   ("mongodb", "database"), ("mysql", "database"), ("prisma", "database"),
   ("drizzle", "database"),
   ("jest", "testing"), ("vitest", "testing"), ("cypress", "testing"),
   ("playwright", "testing"),
   ("vite", "build"), ("webpack", "build"), ("turbopack", "build"),
   ("esbuild", "build")]

/-- The `\w` class of JavaScript (ASCII letters, digits, underscore). -/
def isWordChar (c : Char) : Bool :=
  ('a' ≤ c && c ≤ 'z') || ('A' ≤ c && c ≤ 'Z') || ('0' ≤ c && c ≤ '9') || c == '_'

/-- Match of one character of a `new RegExp('\\b' + tech + '\\b', 'i')`
pattern: the unescaped dot of names like next.js matches any non-newline
character, other characters compare case-insensitively. -/
def techCharMatch (pc hc : Char) : Bool :=
  if pc = '.' then hc != '\n' else lowerPL hc == pc

/-- Consume the pattern at the head of the haystack, returning the rest. -/
def techHere : List Char → List Char → Option (List Char)
  | [], hay => some hay
  | _ :: _, [] => none
  | pc :: prest, hc :: hrest =>
      if techCharMatch pc hc then techHere prest hrest else none

/-- Trailing `\b`: end of input or a non-word character follows (every name
in `techMap` ends with a word character). -/
def boundaryAfter : List Char → Bool
  | [] => true
  | c :: _ => !isWordChar c

/-- Search for `\b`-delimited occurrence of the pattern, scanning start
positions left to right; `prevIsWord` tracks the character before the
current position (every name in `techMap` starts with a word character). -/
def techFound (pat : List Char) : List Char → Bool → Bool
  | [], _ => false
  | c :: rest, prevIsWord =>
      (!prevIsWord &&
        (match techHere pat (c :: rest) with
         | some remaining => boundaryAfter remaining
         | none => false)) ||
      techFound pat rest (isWordChar c)

/-- The test `new RegExp('\\b' + tech + '\\b', 'i').test(combined)`. -/
def techTest (tech : String) (combined : String) : Bool :=
  techFound tech.toList combined.toList false

/-- Upper-case the first character, `tech.charAt(0).toUpperCase() + tech.slice(1)`. -/
def upperFirst (s : String) : String :=
  match s.toList with
  | [] => ""
  | c :: rest =>
      String.mk ((if 'a' ≤ c ∧ c ≤ 'z' then Char.ofNat (c.toNat - 32) else c) :: rest)

/-- `extractTechStack` (route.ts:179-211): every vocabulary entry found with
word boundaries in the combined user + agent text, with its first letter
capitalised, paired with its category. -/
def extractTechStack (content userMessage : String) : List (String × String) :=
  let combined := userMessage ++ " " ++ content
  techMap.filterMap (fun t =>
    if techTest t.1 combined then some (upperFirst t.1, t.2) else none)

-- ============================================
-- processAutoSave (route.ts:216-340) — C3, C8
-- ============================================

/-- One record the auto-save step would insert: target table and fields. -/
structure RecordCandidate where
  table : String
  fields : List (String × String)
deriving Repr, DecidableEq

/-- The record candidates the `switch (patternType)` of `processAutoSave`
(route.ts:251-329) produces for one detected kind.  Decision and bug always
produce exactly one candidate (their extractors have built-in fallbacks);
prompt and rule produce none when their extractor returns `null`; tech
produces one candidate per vocabulary hit; feedback produces none (it is
covered by the always-written llm_responses row). -/
def recordCandidates (k : AutoSavePatternType)
    (content userMessage llmSource today : String) : List RecordCandidate :=
  match k with
  | .decision =>
      [⟨"decisions",
        [("title", extractDecisionTitle content),
         ("description", takeS content 500),
         ("reason", "Wykryte automatycznie z odpowiedzi " ++ llmSource)]⟩]
  | .bug =>
      let bi := extractBugInfo content
      [⟨"bugs_history",
        [("description", bi.description), ("solution", bi.solution)]⟩]
  | .prompt =>
      match extractPrompt content today with
      | some p =>
          [⟨"prompts",
            [("name", p.name), ("llm_target", p.target),
             ("content", p.promptContent)]⟩]
      | none => []
  | .rule =>
      match extractProjectRule content with
      | some ri => [⟨"project_rules", [("rule", ri.rule), ("category", ri.category)]⟩]
      | none => []
  | .tech =>
      (extractTechStack content userMessage).map
        (fun t => ⟨"tech_stack", [("name", t.1), ("category", t.2)]⟩)
  | .feedback => []

/-- Oracle for the persistence calls of `processAutoSave`: the id returned
by `saveLLMResponse` (each `save*` returns `null` on failure instead of
throwing), and the id per detected kind and candidate index. -/
structure DbOracle where
  llmRespId : Option Nat
  projSaveId : AutoSavePatternType → Nat → Option Nat

/-- One entry of the `autoSaved` metadata list. -/
structure SavedRef where
  table : String
  id : Nat
  ptype : AutoSavePatternType
deriving Repr, DecidableEq

/-- The `AIResponseMetadata` returned by `processAutoSave`. -/
structure AIResponseMetadata where
  tokensUsed : Nat
  detectedPatterns : List AutoSavePatternType
  autoSaved : List SavedRef
deriving Repr, DecidableEq

/-- Metadata plus the list of tables on which an insert was attempted. -/
structure AutoSaveResult where
  meta : AIResponseMetadata
  writes : List String
deriving Repr, DecidableEq

/-- `processAutoSave` (route.ts:216-340): always attempt the llm_responses
insert first; when no project id is given, return immediately with the
detected patterns — no project-scoped record is ever written; otherwise
process every detected kind, appending one successful save reference per
candidate the oracle accepted. -/
def processAutoSave (o : DbOracle) (content userMessage llmSource : String)
    (projectId : Option String) (tokensUsed : Nat) (today : String) :
    AutoSaveResult :=
  let detected := detectAutoSavePatterns content
  let llmSaved : List SavedRef :=
    match o.llmRespId with
    | some i => [⟨"llm_responses", i, .feedback⟩]
    | none => []
  match projectId with
  | none => ⟨⟨tokensUsed, detected, llmSaved⟩, ["llm_responses"]⟩
  | some _ =>
      let step := fun (acc : List SavedRef × List String) (k : AutoSavePatternType) =>
        let cands := recordCandidates k content userMessage llmSource today
        let saved := cands.enum.filterMap (fun ic =>
          (o.projSaveId k ic.1).map (fun i => (⟨ic.2.table, i, k⟩ : SavedRef)))
        (acc.1 ++ saved, acc.2 ++ cands.map (·.table))
      let res := detected.foldl step (llmSaved, ["llm_responses"])
      ⟨⟨tokensUsed, detected, res.1⟩, res.2⟩

/-- C3 counterexample: it is not the case that every detected kind other
than tech yields at least one record candidate.  The content "prompt: test"
is detected as a prompt pattern, but `extractPrompt` requires a fenced code
block and returns `null`, so the prompt kind yields no record at all. -/
theorem detected_kind_without_record_counterexample :
    ¬ (∀ (content userMessage llmSource today : String) (k : AutoSavePatternType),
        k ∈ detectAutoSavePatterns content → k ≠ .tech →
        recordCandidates k content userMessage llmSource today ≠ []) := by
  intro h
  exact h "prompt: test" "" "claude" "d" .prompt (by decide) (by decide) (by decide)

/-- C3 amended: only the decision and bug extractors carry a generic
fallback — for every agent response they produce exactly one record
candidate each; the prompt and rule kinds produce nothing when their
specific sub-patterns fail to match (the prompt extractor demands a fenced
code block), and the feedback kind produces no dedicated record. -/
theorem decision_and_bug_always_yield_record
    (content userMessage llmSource today : String) :
    recordCandidates .decision content userMessage llmSource today ≠ [] ∧
    recordCandidates .bug content userMessage llmSource today ≠ [] := by
  constructor <;> simp [recordCandidates]

-- ============================================
-- Preference commands (route.ts:50-63, 345-501)
-- ============================================

/-- Boolean test of a regex against a string, the semantics of `.test`. -/
def rtest (r : RE) (s : String) : Bool := (refind r s).isSome

/-- `replace(/\s+/g, '_')`: each maximal whitespace run becomes one
underscore; `prevWs` tracks whether the previous character was whitespace. -/
def wsToUnd (prevWs : Bool) : List Char → List Char
  | [] => []
  | c :: rest =>
      if isWsJS c then
        (if prevWs then [] else ['_']) ++ wsToUnd true rest
      else c :: wsToUnd false rest

/-- Lower-case a whole string. -/
def lowerStr (s : String) : String := String.mk (s.toList.map lowerPL)

/-- The key normalisation `match[1].trim().toLowerCase().replace(/\s+/g, '_')`
used by the two-capture preference rules (route.ts:441). -/
def keyify (s : String) : String :=
  String.mk (wsToUnd false ((trimJS s).toList.map lowerPL))

/-- `PREFERENCE_PATTERNS.save`: `zapami[eę]taj\s+(.+)` (route.ts:52). -/
def saveRE : RE :=
  .seq (rlit "zapami") (.seq (.cls ['e', 'ę'])
    (.seq (rlit "taj") (.seq wsPlus (.grp 1 (rplus .dot)))))

/-- `PREFERENCE_PATTERNS.saveAlt`: `zapamietaj\s+(.+)` (route.ts:53). -/
def saveAltRE : RE := .seq (rlit "zapamietaj") (.seq wsPlus (.grp 1 (rplus .dot)))

/-- `PREFERENCE_PATTERNS.saveAlt2`: `zapamiętaj\s+(.+)` (route.ts:54). -/
def saveAlt2RE : RE := .seq (rlit "zapamiętaj") (.seq wsPlus (.grp 1 (rplus .dot)))

/-- `PREFERENCE_PATTERNS.saveEn`: `remember\s+(?:that)?\s*(.+)` (route.ts:55). -/
def saveEnRE : RE :=
  .seq (rlit "remember") (.seq wsPlus
    (.seq (ropt (rlit "that")) (.seq wsStar (.grp 1 (rplus .dot)))))

/-- `PREFERENCE_PATTERNS.delete`: `zapomnij\s+(?:o)?\s*(.+)` (route.ts:57). -/
def deleteRE : RE :=
  .seq (rlit "zapomnij") (.seq wsPlus
    (.seq (ropt (rlit "o")) (.seq wsStar (.grp 1 (rplus .dot)))))

/-- `PREFERENCE_PATTERNS.deleteEn`: `forget\s+(?:about)?\s*(.+)` (route.ts:58). -/
def deleteEnRE : RE :=
  .seq (rlit "forget") (.seq wsPlus
    (.seq (ropt (rlit "about")) (.seq wsStar (.grp 1 (rplus .dot)))))

/-- `PREFERENCE_PATTERNS.list` (route.ts:60): alternation of the trigger
words followed by all-optional tails. -/
def listRE : RE :=
  .seq (raltList [rlit "jakie", .seq (rlit "poka") (.cls ['z', 'ż']),
                  .seq (rlit "wy") (.seq (.cls ['s', 'ś']) (rlit "wietl")),
                  rlit "pokaz", rlit "wyswietl", rlit "pokazpreferencje"])
    (.seq wsStar (.seq (ropt (rlit "masz"))
      (.seq wsStar (.seq (ropt (rlit "moje"))
        (.seq wsStar (ropt (rlit "preferencje")))))))

/-- `PREFERENCE_PATTERNS.listAlt`: `(?:poka[zż]|pokaz)\s*preferencje`
(route.ts:61). -/
def listAltRE : RE :=
  .seq (raltList [.seq (rlit "poka") (.cls ['z', 'ż']), rlit "pokaz"])
    (.seq wsStar (rlit "preferencje"))

/-- `PREFERENCE_PATTERNS.listEn`: `(?:show|list|what are)\s*(?:my)?\s*preferences`
(route.ts:62). -/
def listEnRE : RE :=
  .seq (raltList [rlit "show", rlit "list", rlit "what are"])
    (.seq wsStar (.seq (ropt (rlit "my")) (.seq wsStar (rlit "preferences"))))

/-- The classification returned by `detectPreferenceCommand`. -/
inductive PrefCommand where
  | list
  | save (content : String)
  | del (content : String)
  | noCmd
deriving Repr, DecidableEq

/-- `detectPreferenceCommand` (route.ts:345-410): list patterns first, then
the save variants, then the delete variants, each captured remainder
trimmed; `noCmd` when nothing matches. -/
def detectPreferenceCommand (message : String) : PrefCommand :=
  if rtest listRE message || rtest listAltRE message || rtest listEnRE message then
    .list
  else match refind saveRE message with
  | some caps => .save (trimJS (capGet caps 1))
  | none => match refind saveAltRE message with
  | some caps => .save (trimJS (capGet caps 1))
  | none => match refind saveAlt2RE message with
  | some caps => .save (trimJS (capGet caps 1))
  | none => match refind saveEnRE message with
  | some caps => .save (trimJS (capGet caps 1))
  | none => match refind deleteRE message with
  | some caps => .del (trimJS (capGet caps 1))
  | none => match refind deleteEnRE message with
  | some caps => .del (trimJS (capGet caps 1))
  | none => .noCmd

/-- The triple returned by `parsePreference`. -/
structure ParsedPref where
  category : String
  key : String
  value : String
deriving Repr, DecidableEq

/-- One row of the ordered rule table of `parsePreference`; `two` records
whether the regex has two capture groups (`match.length >= 3`). -/
structure PrefRule where
  re : RE
  category : String
  keyName : String
  two : Bool

/-- The ordered preference rule patterns (route.ts:419-432). -/
def prefRules : List PrefRule :=
  [⟨.seq (rlit "nazywam") (.seq wsPlus (.seq (rlit "si") (.seq (.cls ['e', 'ę'])
      (.seq wsPlus (.grp 1 (rplus .dot)))))), "personal", "imię", false⟩,
   ⟨.seq (rlit "mam") (.seq wsPlus (.seq (rlit "na") (.seq wsPlus
      (.seq (rlit "imi") (.seq (.cls ['e', 'ę'])
        (.seq wsPlus (.grp 1 (rplus .dot)))))))), "personal", "imię", false⟩,
   ⟨.seq (rlit "jestem") (.seq wsPlus (.grp 1 (rplus .dot))),
      "personal", "kim_jestem", false⟩,
   ⟨.seq (rlit "prefer") (.seq (.cls ['u', 'ę']) (.seq wsPlus (.grp 1 (rplus .dot)))),
      "general", "preferuje", false⟩,
   ⟨.seq (rlit "lubi") (.seq (.cls ['ę', 'e']) (.seq wsPlus (.grp 1 (rplus .dot)))),
      "general", "lubi", false⟩,
   ⟨.seq (rlit "u") (.seq (.cls ['z', 'ż']) (.seq (rlit "ywam")
      (.seq wsPlus (.grp 1 (rplus .dot))))), "tech", "używa", false⟩,
   ⟨.seq (rlit "pracuj") (.seq (ropt (.cls ['e', 'ę'])) (.seq wsPlus
      (.seq (ropt (raltList [rlit "w", rlit "z", rlit "nad"]))
        (.seq wsStar (.grp 1 (rplus .dot)))))), "work", "pracuje_z", false⟩,
   ⟨.seq (rlit "m") (.seq (.cls ['o', 'ó']) (.seq (rlit "j") (.seq wsPlus
      (.seq (ropt (raltList [rlit "ulubiony", rlit "preferowany"]))
        (.seq wsStar (.seq (.grp 1 (rplus .dot))
          (.seq wsPlus (.seq (rlit "to") (.seq wsPlus (.grp 2 (rplus .dot))))))))))),
      "general", "ulubiony", true⟩,
   ⟨.seq (rlit "odpowiadaj") (.seq wsPlus (.seq (ropt (rlit "mi"))
      (.seq wsPlus (.seq (ropt (rlit "po")) (.seq wsStar (.grp 1 (rplus .dot))))))),
      "communication", "język_odpowiedzi", false⟩,
   ⟨.seq (rlit "my") (.seq wsPlus
      (.seq (ropt (raltList [rlit "preferred", rlit "favorite"]))
        (.seq wsStar (.seq (.grp 1 (rplus .dot))
          (.seq wsPlus (.seq (rlit "is") (.seq wsPlus (.grp 2 (rplus .dot))))))))),
      "general", "favorite", true⟩,
   ⟨.seq (rlit "i") (.seq wsPlus
      (.seq (raltList [rlit "prefer", rlit "like", rlit "use"])
        (.seq wsPlus (.grp 1 (rplus .dot))))), "general", "prefers", false⟩,
   ⟨.seq (rlit "my") (.seq wsPlus (.seq (rlit "name") (.seq wsPlus
      (.seq (rlit "is") (.seq wsPlus (.grp 1 (rplus .dot))))))),
      "personal", "name", false⟩]

/-- First-match-wins walk over the preference rules (route.ts:434-452). -/
def tryPrefRules : List PrefRule → String → Option ParsedPref
  | [], _ => none
  | r :: rest, content =>
      match refind r.re content with
      | some caps =>
          if r.two then
            some ⟨r.category, keyify (capGet caps 1), trimJS (capGet caps 2)⟩
          else
            some ⟨r.category, r.keyName, trimJS (capGet caps 1)⟩
      | none => tryPrefRules rest content

/-- `content.split(/\s+/)` with JavaScript semantics: maximal whitespace
runs are delimiters, a leading or trailing run yields an empty element. -/
def splitWsGo : List Char → List Char → Bool → List String
  | acc, [], _ => [String.mk acc.reverse]
  | acc, c :: rest, prevWs =>
      if isWsJS c then
        if prevWs then splitWsGo acc rest true
        else String.mk acc.reverse :: splitWsGo [] rest true
      else splitWsGo (c :: acc) rest false

/-- `content.split(/\s+/)`. -/
def splitWsJS (s : String) : List String := splitWsGo [] s.toList false

/-- `words.join('_')`. -/
def joinUnderscore : List String → String
  | [] => ""
  | [w] => w
  | w :: rest => w ++ "_" ++ joinUnderscore rest

/-- `parsePreference` (route.ts:415-461): first matching rule wins; a
two-capture rule derives the key from the first capture and the value from
the second, a one-capture rule uses the table's key; when nothing matches,
the key is the first up-to-three whitespace-separated words joined by
underscores and lower-cased, the value the full text. -/
def parsePreference (content : String) : ParsedPref :=
  match tryPrefRules prefRules content with
  | some p => p
  | none =>
      let words := splitWsJS content
      let key := lowerStr (joinUnderscore (words.take (min 3 words.length)))
      ⟨"general", key, content⟩

/-- The category headers of `formatPreferencesList` (route.ts:482-489). -/
def categoryLabel (c : String) : String :=
  if c = "general" then "🎯 Ogólne"
  else if c = "tech" then "💻 Technologia"
  else if c = "work" then "💼 Praca"
  else if c = "communication" then "💬 Komunikacja"
  else if c = "ui" then "🎨 Interfejs"
  else if c = "personal" then "👤 Osobiste"
  else "📁 " ++ c

/-- Categories in order of first appearance (JavaScript object key order). -/
def categoriesOf (ps : List Preference) : List String :=
  ps.foldl (fun acc p => if acc.contains p.category then acc else acc ++ [p.category]) []

/-- The bullet lines of one category group. -/
def groupLines (ps : List Preference) (cat : String) : String :=
  (ps.filter (fun p => p.category == cat)).foldl
    (fun acc p => acc ++ "  • " ++ p.key ++ ": " ++ p.value ++ "\n") ""

/-- `formatPreferencesList` (route.ts:466-501). -/
def formatPreferencesList (preferences : List Preference) : String :=
  if preferences.isEmpty then
    "📋 Nie mam jeszcze zapisanych żadnych preferencji.\n\nMożesz mi powiedzieć np.:\n- \"Zapamiętaj że nazywam się Piotr\"\n- \"Zapamiętaj że preferuję dark mode\"\n- \"Zapamiętaj że używam React i TypeScript\""
  else
    (categoriesOf preferences).foldl
      (fun acc cat => acc ++ categoryLabel cat ++ ":\n" ++ groupLines preferences cat ++ "\n")
      "📋 **Twoje zapisane preferencje:**\n\n"
    ++ "\n💡 Możesz powiedzieć \"zapomnij o [nazwa]\" aby usunąć preferencję."

-- ============================================
-- POST handler (route.ts:735-881) — C9
-- ============================================

/-- `deletePreference` (part_008:641-656): delete every row with the key. -/
def deletePreference (db : List Preference) (key : String) : List Preference :=
  db.filter (fun p => !(p.key == key))

/-- The lookup of the preference to delete (route.ts:803-806): key contains
the lowered-and-underscored content, or value contains the content
case-insensitively. -/
def findPrefToDelete (prefs : List Preference) (content : String) : Option Preference :=
  let keyToDelete := wsToUnd false (content.toList.map lowerPL)
  prefs.find? (fun p =>
    occursIn keyToDelete p.key.toList ||
    occursIn (content.toList.map lowerPL) (p.value.toList.map lowerPL))

/-- Outcome of one `POST /api/chat` request.  `httpOk = false` models the
400 response for a missing message and the 500 response when the initial
`saveChatMessage` of the user turn throws; `savedMessages` lists the chat
messages the handler itself persisted (the agent path's later persistence
happens inside `orchestrateAI` and is modelled there); `prefs` is the
preference store after the request. -/
structure PostResult where
  httpOk : Bool
  events : List Event
  savedMessages : List (String × String)
  agentInvoked : Bool
  prefs : List Preference

/-- The `POST` handler (route.ts:735-881) with the `dbOk` flag standing for
the success of the persistence calls.  A preference command short-circuits
the agent pipeline: the reply is computed locally, streamed as a `claude`
message, persisted, and followed by a plain `done`; otherwise the
orchestration is dispatched.  The `done` of the preference branch carries no
metadata, modelled as zero tokens. -/
def handlePost (o : Oracle) (message : String) (mode : ChatMode)
    (prefs : List Preference) (dbOk : Bool) : PostResult :=
  if message = "" then ⟨false, [], [], false, prefs⟩
  else if dbOk = false then ⟨false, [], [], false, prefs⟩
  else
    match detectPreferenceCommand message with
    | .noCmd =>
        ⟨true, Event.conv "cid" :: orchestrateAI o mode,
         [("user", message)], true, prefs⟩
    | .list =>
        let reply := formatPreferencesList prefs
        ⟨true, [Event.conv "cid", Event.message "claude" reply, Event.done 0],
         [("user", message), ("claude", reply)], false, prefs⟩
    | .save content =>
        if content = "" then
          let reply := "❓ Nie zrozumiałem co mam zapamiętać. Spróbuj np. \"Zapamiętaj że preferuję dark mode\""
          ⟨true, [Event.conv "cid", Event.message "claude" reply, Event.done 0],
           [("user", message), ("claude", reply)], false, prefs⟩
        else
          let parsed := parsePreference content
          let reply := "✅ Zapamiętałem!\n\n**" ++ parsed.key ++ "**: " ++ parsed.value
            ++ "\n\nBędę o tym pamiętać w przyszłych rozmowach."
          ⟨true, [Event.conv "cid", Event.message "claude" reply, Event.done 0],
           [("user", message), ("claude", reply)], false,
           savePreference prefs parsed.category parsed.key parsed.value⟩
    | .del content =>
        if content = "" then
          let reply := "❓ Nie zrozumiałem co mam zapomnieć. Spróbuj np. \"Zapomnij o dark mode\""
          ⟨true, [Event.conv "cid", Event.message "claude" reply, Event.done 0],
           [("user", message), ("claude", reply)], false, prefs⟩
        else
          match findPrefToDelete prefs content with
          | some p =>
              let reply := "🗑️ Usunąłem preferencję:\n\n**" ++ p.key ++ "**: " ++ p.value
              ⟨true, [Event.conv "cid", Event.message "claude" reply, Event.done 0],
               [("user", message), ("claude", reply)], false, deletePreference prefs p.key⟩
          | none =>
              let reply := "❓ Nie znalazłem preferencji pasującej do \"" ++ content
                ++ "\".\n\nPowiedz \"pokaż preferencje\" żeby zobaczyć listę."
              ⟨true, [Event.conv "cid", Event.message "claude" reply, Event.done 0],
               [("user", message), ("claude", reply)], false, prefs⟩

/-- C8: when the request carries no project id, `processAutoSave` attempts
only the `llm_responses` insert — no decision, bug, prompt, rule or tech
record is ever written, whatever kinds were detected — and the returned
metadata still lists every detected kind. -/
theorem no_project_saves_only_llm_response
    (o : DbOracle) (content userMessage llmSource today : String) (tokensUsed : Nat) :
    (processAutoSave o content userMessage llmSource none tokensUsed today).writes
        = ["llm_responses"] ∧
    (∀ r ∈ (processAutoSave o content userMessage llmSource none
        tokensUsed today).meta.autoSaved, r.table = "llm_responses") ∧
    (processAutoSave o content userMessage llmSource none
        tokensUsed today).meta.detectedPatterns = detectAutoSavePatterns content := by
  refine ⟨rfl, ?_, rfl⟩
  intro r hr
  simp only [processAutoSave] at hr
  rcases h : o.llmRespId with _ | i <;> rw [h] at hr <;> simp at hr
  rw [hr]

/-- C4: evaluation of `parsePreference` at the input "my name is Piotr".
The code returns category "general" — the two-capture rule
`my\s+(?:preferred|favorite)?\s*(.+)\s+is\s+(.+)` (rule 10) matches first
with captures "name" and "Piotr", so the dedicated
`my\s+name\s+is\s+(.+)` → personal rule (rule 12) never fires — whereas the
claim and the spec's test expect category "personal". -/
theorem parsePreference_my_name_is_piotr :
    parsePreference "my name is Piotr" =
      { category := "general", key := "name", value := "Piotr" } := by decide

/-- C9: for every request whose message is classified as a preference
command (list, save or delete), with persistence succeeding, the handler
persists exactly the user's raw message and the generated confirmation
reply as chat messages, streams the reply as a `message` event with sender
claude, and invokes no agent client. -/
theorem preference_command_persists_and_streams
    (o : Oracle) (message : String) (mode : ChatMode) (prefs : List Preference)
    (hne : message ≠ "")
    (hcmd : detectPreferenceCommand message ≠ .noCmd) :
    ∃ reply,
      (handlePost o message mode prefs true).savedMessages
          = [("user", message), ("claude", reply)] ∧
      Event.message "claude" reply ∈ (handlePost o message mode prefs true).events ∧
      (handlePost o message mode prefs true).agentInvoked = false := by
  rcases h : detectPreferenceCommand message with _ | c | c | _
  · refine ⟨formatPreferencesList prefs, ?_, ?_, ?_⟩ <;> simp [handlePost, hne, h]
  · by_cases hc : c = ""
    · refine ⟨"❓ Nie zrozumiałem co mam zapamiętać. Spróbuj np. \"Zapamiętaj że preferuję dark mode\"",
        ?_, ?_, ?_⟩ <;> simp [handlePost, hne, h, hc]
    · refine ⟨"✅ Zapamiętałem!\n\n**" ++ (parsePreference c).key ++ "**: "
          ++ (parsePreference c).value ++ "\n\nBędę o tym pamiętać w przyszłych rozmowach.",
        ?_, ?_, ?_⟩ <;> simp [handlePost, hne, h, hc]
  · by_cases hc : c = ""
    · refine ⟨"❓ Nie zrozumiałem co mam zapomnieć. Spróbuj np. \"Zapomnij o dark mode\"",
        ?_, ?_, ?_⟩ <;> simp [handlePost, hne, h, hc]
    · rcases hf : findPrefToDelete prefs c with _ | p
      · refine ⟨"❓ Nie znalazłem preferencji pasującej do \"" ++ c
            ++ "\".\n\nPowiedz \"pokaż preferencje\" żeby zobaczyć listę.",
          ?_, ?_, ?_⟩ <;> simp [handlePost, hne, h, hc, hf]
      · refine ⟨"🗑️ Usunąłem preferencję:\n\n**" ++ p.key ++ "**: " ++ p.value,
          ?_, ?_, ?_⟩ <;> simp [handlePost, hne, h, hc, hf]
  · exact absurd h hcmd

/-- Witness for C9: the message "pokaz" is a list command; the handler
persists the user turn and the claude reply, streams the reply, and
dispatches no agent. -/
theorem preference_command_persists_and_streams_witness :
    ∃ reply,
      (handlePost (allOkOracle 0) "pokaz" .solo [] true).savedMessages
          = [("user", "pokaz"), ("claude", reply)] ∧
      Event.message "claude" reply ∈ (handlePost (allOkOracle 0) "pokaz" .solo [] true).events ∧
      (handlePost (allOkOracle 0) "pokaz" .solo [] true).agentInvoked = false :=
  preference_command_persists_and_streams (allOkOracle 0) "pokaz" .solo []
    (by decide) (by decide)

end Kodus
